import Mathlib

/-!
# Cartesi rollup dapp (`java-dapp/src/index.js`)

A shallow embedding of the dapp's JavaScript: the codec helpers `hex2str` and
`str2hex`, the validator `isNumeric`, the two request handlers, the handler
table and the polling loop, followed by the properties proved about them.

Conventions of the embedding.

* A JavaScript function that may throw returns `Except JsError _`.
* The module-level variables `users` and `toUpperTotal` are the record
  `AppState`, threaded through the handlers.
* `fetch` is an output: every call appends one `Post` to a log.  A call to
  `/report` or `/notice` always resolves (its response is never read by the
  program); the response of `/finish` is the next element of the input list of
  `FinishResponse`s.  Transport failures are not part of the embedding.
* `console.log` lines are omitted: they neither throw nor touch the state.
* What the program calls but does not define (the `ethers` package and
  `String.prototype.toUpperCase`) is the record `Host`.
-/

namespace Dapp

/-! ## JavaScript values and exceptions -/

/-- The exceptions the program can raise.  Both the JavaScript engine
(calling or reading through `undefined`) and the `ethers` package (an argument
it does not accept, error code `INVALID_ARGUMENT`) throw a `TypeError`.  For an
error of the engine `message` is its message; for an error of `ethers` it is
the `shortMessage`, the message without the appended argument, value, code and
version details. -/
inductive JsError where
  | typeError (message : String)
  deriving DecidableEq, Repr

deriving instance DecidableEq for Except

/-! ### `isNaN` on a string: the `StringNumericLiteral` grammar

`isNaN(v)` converts `v` with `ToNumber`; for a string this is `StringToNumber`,
which yields `NaN` exactly when the text does not parse as a
`StringNumericLiteral` (ECMA-262, 7.1.4.1). -/

/-- `StrWhiteSpaceChar`: the code points of `WhiteSpace` and `LineTerminator`. -/
def isStrWhiteSpaceChar (c : Char) : Bool :=
  let n := c.toNat
  n == 0x09 || n == 0x0B || n == 0x0C || n == 0x20 || n == 0xA0 || n == 0xFEFF ||
  n == 0x1680 || (0x2000 ≤ n && n ≤ 0x200A) || n == 0x202F || n == 0x205F ||
  n == 0x3000 || n == 0x0A || n == 0x0D || n == 0x2028 || n == 0x2029

/-- `DecimalDigit`: one of `0` to `9`. -/
def isDecimalDigit (c : Char) : Bool :=
  0x30 ≤ c.toNat && c.toNat ≤ 0x39

/-- `HexDigit`. -/
def isHexDigit (c : Char) : Bool :=
  isDecimalDigit c || (0x41 ≤ c.toNat && c.toNat ≤ 0x46) || (0x61 ≤ c.toNat && c.toNat ≤ 0x66)

/-- `OctalDigit`. -/
def isOctalDigit (c : Char) : Bool :=
  0x30 ≤ c.toNat && c.toNat ≤ 0x37

/-- `BinaryDigit`. -/
def isBinaryDigit (c : Char) : Bool :=
  c == '0' || c == '1'

/-- Strip leading and trailing `StrWhiteSpaceChar`s. -/
def trimStrWhiteSpace (cs : List Char) : List Char :=
  ((cs.dropWhile isStrWhiteSpaceChar).reverse.dropWhile isStrWhiteSpaceChar).reverse

/-- `DecimalDigits`: a non-empty run of decimal digits (no separators). -/
def isDecimalDigits (cs : List Char) : Bool :=
  !cs.isEmpty && cs.all isDecimalDigit

/-- `SignedInteger`. -/
def isSignedInteger (cs : List Char) : Bool :=
  match cs with
  | [] => false
  | c :: r => if c == '+' || c == '-' then isDecimalDigits r else isDecimalDigits (c :: r)

/-- An optional `ExponentPart`. -/
def isExponentPartOpt (cs : List Char) : Bool :=
  match cs with
  | [] => true
  | c :: r => (c == 'e' || c == 'E') && isSignedInteger r

/-- `StrUnsignedDecimalLiteral`: `Infinity`, `digits . digits? exp?`,
`. digits exp?` or `digits exp?`. -/
def isStrUnsignedDecimalLiteral (cs : List Char) : Bool :=
  cs == "Infinity".data ||
  (let ip := cs.takeWhile isDecimalDigit
   match cs.dropWhile isDecimalDigit with
   | [] => !ip.isEmpty
   | c :: r =>
     if c == '.' then
       (!ip.isEmpty || !(r.takeWhile isDecimalDigit).isEmpty) &&
         isExponentPartOpt (r.dropWhile isDecimalDigit)
     else !ip.isEmpty && isExponentPartOpt (c :: r))

/-- `StrDecimalLiteral`: an optionally signed `StrUnsignedDecimalLiteral`. -/
def isStrDecimalLiteral (cs : List Char) : Bool :=
  match cs with
  | [] => false
  | c :: r =>
    if c == '+' || c == '-' then isStrUnsignedDecimalLiteral r
    else isStrUnsignedDecimalLiteral (c :: r)

/-- `NonDecimalIntegerLiteral`: `0b`, `0o` or `0x` (either case) and at least one digit. -/
def isNonDecimalIntegerLiteral (cs : List Char) : Bool :=
  match cs with
  | z :: k :: r =>
    z == '0' && !r.isEmpty &&
      (((k == 'b' || k == 'B') && r.all isBinaryDigit) ||
       ((k == 'o' || k == 'O') && r.all isOctalDigit) ||
       ((k == 'x' || k == 'X') && r.all isHexDigit))
  | _ => false

/-- `StringNumericLiteral`: optional white space around nothing or a `StrNumericLiteral`. -/
def isStringNumericLiteral (cs : List Char) : Bool :=
  let t := trimStrWhiteSpace cs
  t.isEmpty || isStrDecimalLiteral t || isNonDecimalIntegerLiteral t

/-- The global `isNaN` applied to a string. -/
def isNaN (num : String) : Bool :=
  !isStringNumericLiteral num.data

/-! ### `JSON.stringify` on the two objects the program serialises -/

/-- One lower-case hexadecimal digit. -/
def hexDigitChar (n : Nat) : Char :=
  if n < 10 then Char.ofNat (0x30 + n) else Char.ofNat (0x61 + (n - 10))

/-- `QuoteJSONString` on one code point: the two-character escapes, `\u00XX`
for the other control characters, the character itself otherwise. -/
def quoteJSONChar (c : Char) : List Char :=
  let n := c.toNat
  let bs := Char.ofNat 0x5C
  if n == 0x08 then [bs, 'b']
  else if n == 0x09 then [bs, 't']
  else if n == 0x0A then [bs, 'n']
  else if n == 0x0C then [bs, 'f']
  else if n == 0x0D then [bs, 'r']
  else if n == 0x22 then [bs, Char.ofNat 0x22]
  else if n == 0x5C then [bs, bs]
  else if n < 0x20 then [bs, 'u', '0', '0', hexDigitChar (n / 16), hexDigitChar (n % 16)]
  else [c]

/-- `QuoteJSONString`: the text between double quotes, escaped. -/
def quoteJSONString (s : String) : List Char :=
  [Char.ofNat 0x22] ++ (s.data.map quoteJSONChar).flatten ++ [Char.ofNat 0x22]

/-- `JSON.stringify({users})` for an array of strings:
`\x7b"users":["a","b"]\x7d`. -/
def stringify_users (users : List String) : String :=
  String.mk ("\x7b\"users\":[".data ++
    (List.intersperse [','] (users.map quoteJSONString)).flatten ++ "]\x7d".data)

/-- `JSON.stringify({toUpperTotal})` for a counter that is a natural number
below `2^53` (where the double is exact and prints in decimal):
`\x7b"toUpperTotal":3\x7d`. -/
def stringify_toUpperTotal (toUpperTotal : Nat) : String :=
  String.mk ("\x7b\"toUpperTotal\":".data ++ (Nat.toDigits 10 toUpperTotal) ++ "\x7d".data)

/-! ## The `ethers` package (version 6)

The opening comment of the source says that `ethers` is not used in the code
below it; it is: `hex2str` and `str2hex` read three properties of the
`ethers` namespace object, `toUtf8String`, `toUtf8Bytes` and `helify`.  The
first two are exported functions; they are modelled below on lists of byte
values.  The package exports its byte-array-to-hex function under the name
`hexlify`; it has no export named `helify`. -/

namespace Ethers

/-- The value of one hexadecimal digit, either case. -/
def hexVal (c : Char) : Option Nat :=
  let n := c.toNat
  if 0x30 ≤ n ∧ n ≤ 0x39 then some (n - 0x30)
  else if 0x61 ≤ n ∧ n ≤ 0x66 then some (n - 0x61 + 10)
  else if 0x41 ≤ n ∧ n ≤ 0x46 then some (n - 0x41 + 10)
  else none

/-- Pairs of hexadecimal digits to bytes; `none` on an odd length or a
character that is no hexadecimal digit. -/
def hexPairs : List Char → Option (List Nat)
  | [] => some []
  | [_] => none
  | a :: b :: r =>
    match hexVal a, hexVal b, hexPairs r with
    | some x, some y, some t => some ((16 * x + y) :: t)
    | _, _, _ => none

/-- `getBytes` on a string: it must match `/^0x([0-9a-f][0-9a-f])*$/i`. -/
def getBytes (value : String) : Except JsError (List Nat) :=
  match value.data with
  | z :: x :: r =>
    if z == '0' && (x == 'x' || x == 'X') then
      match hexPairs r with
      | some bytes => .ok bytes
      | none => .error (.typeError "invalid BytesLike value")
    else .error (.typeError "invalid BytesLike value")
  | _ => .error (.typeError "invalid BytesLike value")

/-- The error of the default policy of the decoder: `reason` is one of the
reason codes of `ethers`, `offset` the index of the byte it is reported at. -/
def invalidCodepoint (offset : Nat) (reason : String) : JsError :=
  .typeError (String.mk
    ("invalid codepoint at offset ".data ++ Nat.toDigits 10 offset ++ "; ".data ++ reason.data))

/-- A UTF-8 continuation byte, `10xx xxxx`. -/
def isContinuation (b : Nat) : Bool :=
  0x80 ≤ b && b < 0xC0

/-- Accept the code point decoded from the sequence starting at `offset`
unless it is above `0x10ffff`, a UTF-16 surrogate, or encoded with more bytes
than needed (`overlongMask`), in this order. -/
def checkCodePoint (offset cp overlongMask : Nat) : Except JsError Char :=
  if cp > 0x10FFFF then .error (invalidCodepoint offset "OUT_OF_RANGE")
  else if 0xD800 ≤ cp ∧ cp ≤ 0xDFFF then .error (invalidCodepoint offset "UTF16_SURROGATE")
  else if cp ≤ overlongMask then .error (invalidCodepoint offset "OVERLONG")
  else .ok (Char.ofNat cp)

/-- Put a decoded character in front of the decoding of the remaining bytes. -/
def consChar (c : Except JsError Char) (rest : Except JsError (List Char)) :
    Except JsError (List Char) :=
  match c with
  | .error e => .error e
  | .ok ch =>
    match rest with
    | .error e => .error e
    | .ok cs => .ok (ch :: cs)

/-- The strict UTF-8 decoder behind `toUtf8String` (the default error policy
throws on the first malformed sequence); the second argument is the index of
the first byte of the list in the whole input.  A lead byte `110x xxxx`,
`1110 xxxx` or `1111 0xxx` takes one, two or three continuation bytes:
`OVERRUN` when the input ends before them, `MISSING_CONTINUE` at the first
byte among them that is no continuation byte. -/
def decodeUtf8 : List Nat → Nat → Except JsError (List Char)
  | [], _ => .ok []
  | c :: rest, i =>
    if c < 0x80 then consChar (.ok (Char.ofNat c)) (decodeUtf8 rest (i + 1))
    else if 0xC0 ≤ c ∧ c < 0xE0 then
      match rest with
      | b1 :: rest1 =>
        if !isContinuation b1 then .error (invalidCodepoint (i + 1) "MISSING_CONTINUE")
        else
          consChar (checkCodePoint i ((c % 0x20) * 0x40 + b1 % 0x40) 0x7F)
            (decodeUtf8 rest1 (i + 2))
      | _ => .error (invalidCodepoint i "OVERRUN")
    else if 0xE0 ≤ c ∧ c < 0xF0 then
      match rest with
      | b1 :: b2 :: rest2 =>
        if !isContinuation b1 then .error (invalidCodepoint (i + 1) "MISSING_CONTINUE")
        else if !isContinuation b2 then .error (invalidCodepoint (i + 2) "MISSING_CONTINUE")
        else
          consChar
            (checkCodePoint i (((c % 0x10) * 0x40 + b1 % 0x40) * 0x40 + b2 % 0x40) 0x7FF)
            (decodeUtf8 rest2 (i + 3))
      | _ => .error (invalidCodepoint i "OVERRUN")
    else if 0xF0 ≤ c ∧ c < 0xF8 then
      match rest with
      | b1 :: b2 :: b3 :: rest3 =>
        if !isContinuation b1 then .error (invalidCodepoint (i + 1) "MISSING_CONTINUE")
        else if !isContinuation b2 then .error (invalidCodepoint (i + 2) "MISSING_CONTINUE")
        else if !isContinuation b3 then .error (invalidCodepoint (i + 3) "MISSING_CONTINUE")
        else
          consChar
            (checkCodePoint i
              ((((c % 0x08) * 0x40 + b1 % 0x40) * 0x40 + b2 % 0x40) * 0x40 + b3 % 0x40) 0xFFFF)
            (decodeUtf8 rest3 (i + 4))
      | _ => .error (invalidCodepoint i "OVERRUN")
    else if isContinuation c then .error (invalidCodepoint i "UNEXPECTED_CONTINUE")
    else .error (invalidCodepoint i "BAD_PREFIX")

/-- Model of `ethers.toUtf8String` on a hex string. -/
def toUtf8String (hex : String) : Except JsError String :=
  match getBytes hex with
  | .error e => .error e
  | .ok bytes =>
    match decodeUtf8 bytes 0 with
    | .error e => .error e
    | .ok cs => .ok (String.mk cs)

/-- The UTF-8 bytes of one code point. -/
def encodeChar (c : Char) : List Nat :=
  let n := c.toNat
  if n < 0x80 then [n]
  else if n < 0x800 then [0xC0 + n / 0x40, 0x80 + n % 0x40]
  else if n < 0x10000 then [0xE0 + n / 0x1000, 0x80 + n / 0x40 % 0x40, 0x80 + n % 0x40]
  else [0xF0 + n / 0x40000, 0x80 + n / 0x1000 % 0x40, 0x80 + n / 0x40 % 0x40, 0x80 + n % 0x40]

/-- Model of `ethers.toUtf8Bytes`.  It throws only on an unpaired surrogate,
which a sequence of Unicode scalar values does not contain. -/
def toUtf8Bytes (str : String) : Except JsError (List Nat) :=
  .ok (str.data.map encodeChar).flatten

end Ethers

/-- What the program calls and does not define. -/
structure Host where
  /-- The property `ethers.toUtf8String`. -/
  toUtf8String : String → Except JsError String
  /-- The property `ethers.toUtf8Bytes`. -/
  toUtf8Bytes : String → Except JsError (List Nat)
  /-- The property `ethers.helify`: `none` when the namespace object has no
  such member (the property read yields `undefined`). -/
  helify : Option (List Nat → Except JsError String)
  /-- The method `String.prototype.toUpperCase`. -/
  toUpperCase : String → String

/-- The upper-case form of one code point below `U+0100`: `a` to `z` and the
Latin-1 letters `U+00E0` to `U+00FE` (the division sign `U+00F7` apart) move
down by `0x20`, the sharp s `U+00DF` becomes `SS`, the micro sign `U+00B5`
becomes `U+039C`, `U+00FF` becomes `U+0178`; every other code point is kept. -/
def upperLatin1 (c : Char) : List Char :=
  let n := c.toNat
  if 0x61 ≤ n ∧ n ≤ 0x7A then [Char.ofNat (n - 0x20)]
  else if n = 0xB5 then [Char.ofNat 0x39C]
  else if n = 0xDF then ['S', 'S']
  else if 0xE0 ≤ n ∧ n ≤ 0xFE ∧ n ≠ 0xF7 then [Char.ofNat (n - 0x20)]
  else if n = 0xFF then [Char.ofNat 0x178]
  else [c]

/-- `String.prototype.toUpperCase` on a text whose code points are all below
`U+0100`.  The case tables of Unicode beyond Latin-1 are not modelled: such a
character is kept as it is, which is not always what JavaScript does.  The
theorems below hold for every `Host`; this function is evaluated only in
closed examples, on ASCII text. -/
def toUpperCaseLatin1 (s : String) : String :=
  String.mk (s.data.map upperLatin1).flatten

/-- The host the program runs on: `ethers` version 6, in which `helify` is
not defined. -/
def node : Host where
  toUtf8String := Ethers.toUtf8String
  toUtf8Bytes := Ethers.toUtf8Bytes
  helify := none
  toUpperCase := toUpperCaseLatin1

/-! ## The program -/

/-- `hex2str(hex)`: `ethers.toUtf8String(hex)`. -/
def hex2str (H : Host) (hex : String) : Except JsError String :=
  H.toUtf8String hex

/-- `str2hex(payload)`: `ethers.helify(ethers.toUtf8Bytes(payload))`.  The
argument is evaluated first; the call then throws a `TypeError` when the
callee `ethers.helify` is `undefined`. -/
def str2hex (H : Host) (payload : String) : Except JsError String :=
  match H.toUtf8Bytes payload with
  | .error e => .error e
  | .ok bytes =>
    match H.helify with
    | none => .error (.typeError "ethers.helify is not a function")
    | some helify => helify bytes

/-- `isNumeric(num)`: `!isNaN(num)`. -/
def isNumeric (num : String) : Bool :=
  !isNaN num

/-- The module-level variables `users` and `toUpperTotal`.  The counter is a
JavaScript number; it is exact as long as it stays below `2^53`. -/
structure AppState where
  users : List String
  toUpperTotal : Nat
  deriving DecidableEq, Repr

/-- `let users = []` and `let toUpperTotal = 0`. -/
def AppState.initial : AppState :=
  { users := [], toUpperTotal := 0 }

/-- The three paths under `rollup_server` the program posts to. -/
inductive Endpoint where
  | finish
  | notice
  | report
  deriving DecidableEq, Repr

/-- The object given to `JSON.stringify` for the body of a POST: either
`\x7bstatus: s\x7d` or `\x7bpayload: hex\x7d`. -/
inductive Body where
  | status (s : String)
  | payload (hex : String)
  deriving DecidableEq, Repr

/-- One call of `fetch` with method POST. -/
structure Post where
  endpoint : Endpoint
  body : Body
  deriving DecidableEq, Repr

/-- The object `data["metadata"]`. -/
structure Metadata where
  msg_sender : String
  deriving DecidableEq, Repr

/-- The object `rollup_req["data"]`.  An inspect request carries no
`metadata`. -/
structure RequestData where
  metadata : Option Metadata
  payload : String
  deriving DecidableEq, Repr

/-- What a call through the handler table can evaluate to: a string, or (for
the inherited `constructor`) the request's data object. -/
inductive JsValue where
  | str (s : String)
  | obj (data : RequestData)
  deriving DecidableEq, Repr

/-- What one handler call does: the variables afterwards, the POSTs it made
in order, and the value it returned or the exception it threw. -/
structure Effect where
  state : AppState
  sent : List Post
  result : Except JsError JsValue
  deriving DecidableEq

/-- The function `handle_advance(data)`. -/
def handle_advance (H : Host) (st : AppState) (data : RequestData) : Effect :=
  match data.metadata with
  | none =>
    ⟨st, [], .error (.typeError "Cannot read properties of undefined (reading 'msg_sender')")⟩
  | some metadata =>
    let sender := metadata.msg_sender
    let payload := data.payload
    match hex2str H payload with
    | .error e => ⟨st, [], .error e⟩
    | .ok sentence =>
      if isNumeric sentence then
        match str2hex H "sentence is not in hex format" with
        | .error e => ⟨st, [], .error e⟩
        | .ok hex => ⟨st, [⟨.report, .payload hex⟩], .ok (.str "reject")⟩
      else
        let st1 : AppState := { users := st.users ++ [sender], toUpperTotal := st.toUpperTotal + 1 }
        let sentence := H.toUpperCase sentence
        match str2hex H sentence with
        | .error e => ⟨st1, [], .error e⟩
        | .ok hex => ⟨st1, [⟨.notice, .payload hex⟩], .ok (.str "accept")⟩

/-- The value of `responseObject` in `handle_inspect` for a decoded route. -/
def responseObject (st : AppState) (route : String) : String :=
  if route = "list" then stringify_users st.users
  else if route = "total" then stringify_toUpperTotal st.toUpperTotal
  else "route not implemented"

/-- The function `handle_inspect(data)`. -/
def handle_inspect (H : Host) (st : AppState) (data : RequestData) : Effect :=
  let payload := data.payload
  match hex2str H payload with
  | .error e => ⟨st, [], .error e⟩
  | .ok route =>
    match str2hex H (responseObject st route) with
    | .error e => ⟨st, [], .error e⟩
    | .ok hex => ⟨st, [⟨.report, .payload hex⟩], .ok (.str "accept")⟩

/-- A callable found by a property read on `handlers`. -/
abbrev Handler := Host → AppState → RequestData → Effect

/-- The callable members `handlers` inherits from `Object.prototype`, called
as `handler(data)` with `this` undefined and `data` an object: `constructor`
is `Object` and returns its argument, `toString` returns the tag of
`undefined`, every other one throws on converting `this` to an object.
(`__proto__` is inherited too but is an object, not a function.) -/
def objectPrototype (name : String) : Option Handler :=
  if name = "constructor" then some fun _ st data => ⟨st, [], .ok (.obj data)⟩
  else if name = "toString" then some fun _ st _ => ⟨st, [], .ok (.str "[object Undefined]")⟩
  else if name ∈ ["toLocaleString", "valueOf", "hasOwnProperty", "isPrototypeOf",
      "propertyIsEnumerable", "__defineGetter__", "__defineSetter__", "__lookupGetter__",
      "__lookupSetter__"] then
    some fun _ st _ => ⟨st, [], .error (.typeError "Cannot convert undefined or null to object")⟩
  else none

/-- The property read `handlers[request_type]`: the two own properties, then
the prototype; `none` when the value read is not a function. -/
def handlers (request_type : String) : Option Handler :=
  if request_type = "advance_state" then some handle_advance
  else if request_type = "inspect_state" then some handle_inspect
  else objectPrototype request_type

/-- The parsed body `rollup_req` of a `/finish` response. -/
structure RollupReq where
  request_type : String
  data : RequestData
  deriving DecidableEq, Repr

/-- The coordinator's answer to one POST to `/finish`: status 202, or a
request to handle. -/
inductive FinishResponse where
  | noPending
  | pending (rollup_req : RollupReq)
  deriving DecidableEq, Repr

/-- The running process: the module-level variables, every POST made so far
(oldest first), and the exception that ended the loop, if one did. -/
structure Process where
  app : AppState
  /-- The variable `finish["status"]`. -/
  finish_status : JsValue
  sent : List Post
  fault : Option JsError
  deriving DecidableEq

/-- The process at start-up: `var finish = \x7bstatus: "accept"\x7d`. -/
def Process.initial : Process :=
  { app := AppState.initial, finish_status := .str "accept", sent := [], fault := none }

/-- The lines `var handler = handlers[...]; finish["status"] = await handler(...)`. -/
def dispatch (H : Host) (p : Process) (rollup_req : RollupReq) : Process :=
  match handlers rollup_req.request_type with
  | none => { p with fault := some (.typeError "handler is not a function") }
  | some handler =>
    let eff := handler H p.app rollup_req.data
    match eff.result with
    | .ok v => { app := eff.state, finish_status := v, sent := p.sent ++ eff.sent, fault := none }
    | .error e =>
      { app := eff.state, finish_status := p.finish_status, sent := p.sent ++ eff.sent,
        fault := some e }

/-- One pass through the body of `while (true)`: POST the literal
`\x7bstatus: "accept"\x7d` to `/finish`, then either poll again (202) or dispatch. -/
def iteration (H : Host) (p : Process) (response : FinishResponse) : Process :=
  let polled : Process := { p with sent := p.sent ++ [⟨.finish, .status "accept"⟩] }
  match response with
  | .noPending => polled
  | .pending rollup_req => dispatch H polled rollup_req

/-- The loop against a coordinator that answers the successive polls with
`responses`; an exception thrown in the body ends the loop. -/
def run (H : Host) (p : Process) : List FinishResponse → Process
  | [] => p
  | response :: rest =>
    match p.fault with
    | some _ => p
    | none => run H (iteration H p response) rest

/-- The results of the handler calls made while running the loop, in order,
each with the request it answered. -/
def handled (H : Host) (p : Process) : List FinishResponse → List (RollupReq × Except JsError JsValue)
  | [] => []
  | .noPending :: rest =>
    match p.fault with
    | some _ => []
    | none => handled H (iteration H p .noPending) rest
  | .pending rollup_req :: rest =>
    match p.fault with
    | some _ => []
    | none =>
      match handlers rollup_req.request_type with
      | none => []
      | some handler =>
        (rollup_req, (handler H p.app rollup_req.data).result) ::
          handled H (iteration H p (.pending rollup_req)) rest

/-- The advance request from `sender` whose payload is `payload`. -/
def advanceRequest (sender payload : String) : FinishResponse :=
  .pending { request_type := "advance_state", data := { metadata := some ⟨sender⟩, payload := payload } }

/-- The inspect request whose payload is `payload`. -/
def inspectRequest (payload : String) : FinishResponse :=
  .pending { request_type := "inspect_state", data := { metadata := none, payload := payload } }

/-! ## Notions used in the statements -/

/-- The texts of claim C2: decimal digits only, with optionally one leading
sign and optionally one decimal point, and at least one digit.  Such a text
is `sign ++ ip` or `sign ++ ip ++ "." ++ fp` with `ip` and `fp` runs of digits. -/
def DigitsOnly (T : String) : Prop :=
  ∃ sign ip fp : List Char,
    (sign = [] ∨ sign = ['+'] ∨ sign = ['-']) ∧
    (∀ c ∈ ip, isDecimalDigit c = true) ∧ (∀ c ∈ fp, isDecimalDigit c = true) ∧
    ((ip ≠ [] ∧ fp = [] ∧ T.data = sign ++ ip) ∨
      ((ip ≠ [] ∨ fp ≠ []) ∧ T.data = sign ++ ip ++ '.' :: fp))

/-- The texts of claim C10: the empty text and the texts made of white space only. -/
def BlankText (T : String) : Prop :=
  ∀ c ∈ T.data, isStrWhiteSpaceChar c = true

instance (T : String) : Decidable (BlankText T) := by
  unfold BlankText
  infer_instance

/-- `hex2str(str2hex(x))`: encode, then decode what was encoded. -/
def roundTrip (H : Host) (x : String) : Except JsError String :=
  match str2hex H x with
  | .error e => .error e
  | .ok hex => hex2str H hex

/-- Whether a handled request is an advance request that returned `accept`. -/
def isAcceptedAdvance (entry : RollupReq × Except JsError JsValue) : Bool :=
  entry.1.request_type == "advance_state" && entry.2 == .ok (.str "accept")

/-- The number of advance requests whose handling returned `accept` while
running the loop. -/
def acceptedAdvances (H : Host) (p : Process) (responses : List FinishResponse) : Nat :=
  ((handled H p responses).filter isAcceptedAdvance).length

/-! ## Properties

### `isNumeric` -/

theorem isDecimalDigit_not_whiteSpace (c : Char) (h : isDecimalDigit c = true) :
    isStrWhiteSpaceChar c = false := by
  simp only [isDecimalDigit, Bool.and_eq_true, decide_eq_true_eq] at h
  simp only [isStrWhiteSpaceChar, Bool.or_eq_false_iff, Bool.and_eq_false_iff, beq_eq_false_iff_ne,
    decide_eq_false_iff_not, ne_eq]
  omega

theorem isDecimalDigit_ne (c d : Char) (h : isDecimalDigit c = true)
    (hd : isDecimalDigit d = false) : (c == d) = false := by
  rw [beq_eq_false_iff_ne]
  intro hcd
  rw [hcd, hd] at h
  cases h

theorem isStrWhiteSpaceChar_not_digit (c : Char) (h : isStrWhiteSpaceChar c = true) :
    isDecimalDigit c = false := by
  cases hd : isDecimalDigit c with
  | false => rfl
  | true =>
    rw [isDecimalDigit_not_whiteSpace c hd] at h
    cases h

theorem trimStrWhiteSpace_of_none (cs : List Char)
    (h : ∀ c ∈ cs, isStrWhiteSpaceChar c = false) : trimStrWhiteSpace cs = cs := by
  have key : ∀ l : List Char, (∀ c ∈ l, isStrWhiteSpaceChar c = false) →
      l.dropWhile isStrWhiteSpaceChar = l := by
    intro l hl
    cases l with
    | nil => rfl
    | cons a r => simp [List.dropWhile, hl a (List.mem_cons_self a r)]
  unfold trimStrWhiteSpace
  rw [key cs h, key cs.reverse (fun c hc => h c (List.mem_reverse.mp hc)), List.reverse_reverse]

theorem trimStrWhiteSpace_of_all (cs : List Char)
    (h : ∀ c ∈ cs, isStrWhiteSpaceChar c = true) : trimStrWhiteSpace cs = [] := by
  unfold trimStrWhiteSpace
  rw [List.dropWhile_eq_nil_iff.mpr h]
  rfl

theorem isStrUnsignedDecimalLiteral_digits (ip : List Char) (hne : ip ≠ [])
    (hip : ∀ c ∈ ip, isDecimalDigit c = true) : isStrUnsignedDecimalLiteral ip = true := by
  unfold isStrUnsignedDecimalLiteral
  rw [Bool.or_eq_true]
  right
  rw [List.takeWhile_eq_self_iff.mpr hip, List.dropWhile_eq_nil_iff.mpr hip]
  cases ip with
  | nil => exact absurd rfl hne
  | cons a r => rfl

theorem isStrUnsignedDecimalLiteral_point (ip fp : List Char) (hne : ip ≠ [] ∨ fp ≠ [])
    (hip : ∀ c ∈ ip, isDecimalDigit c = true) (hfp : ∀ c ∈ fp, isDecimalDigit c = true) :
    isStrUnsignedDecimalLiteral (ip ++ '.' :: fp) = true := by
  unfold isStrUnsignedDecimalLiteral
  rw [Bool.or_eq_true]
  right
  have hpoint : isDecimalDigit '.' = false := by decide
  rw [List.takeWhile_append_of_pos hip, List.dropWhile_append_of_pos hip]
  simp only [List.takeWhile_cons, List.dropWhile_cons, hpoint, Bool.false_eq_true, if_false,
    List.append_nil, beq_self_eq_true, if_true, List.takeWhile_eq_self_iff.mpr hfp,
    List.dropWhile_eq_nil_iff.mpr hfp, isExponentPartOpt, Bool.and_true]
  rcases hne with h | h
  · cases ip with
    | nil => exact absurd rfl h
    | cons a r => rfl
  · cases fp with
    | nil => exact absurd rfl h
    | cons a r => simp

theorem isStrDecimalLiteral_signed (sign body : List Char)
    (hsign : sign = [] ∨ sign = ['+'] ∨ sign = ['-'])
    (hhead : ∀ c r, body = c :: r → (c == '+' || c == '-') = false)
    (hbody : isStrUnsignedDecimalLiteral body = true) :
    isStrDecimalLiteral (sign ++ body) = true := by
  rcases hsign with h | h | h
  · subst h
    cases body with
    | nil => exact absurd hbody (by decide)
    | cons c r =>
      simp only [List.nil_append, isStrDecimalLiteral, hhead c r rfl, Bool.false_eq_true, if_false]
      exact hbody
  · subst h
    simpa [isStrDecimalLiteral] using hbody
  · subst h
    simpa [isStrDecimalLiteral] using hbody

/-- Every text of digits with an optional sign and decimal point is numeric. -/
theorem isNumeric_of_digitsOnly (T : String) (hT : DigitsOnly T) : isNumeric T = true := by
  obtain ⟨sign, ip, fp, hsign, hip, hfp, hform⟩ := hT
  have hsignws : ∀ c ∈ sign, isStrWhiteSpaceChar c = false := by
    rcases hsign with h | h | h <;> subst h <;> decide
  have hsigndig : ∀ c, isDecimalDigit c = true → (c == '+' || c == '-') = false := by
    intro c hc
    rw [isDecimalDigit_ne c '+' hc (by decide), isDecimalDigit_ne c '-' hc (by decide)]
    rfl
  have hlit : isStringNumericLiteral T.data = true := by
    rcases hform with ⟨hne, _, hdata⟩ | ⟨hne, hdata⟩
    · have hws : ∀ c ∈ sign ++ ip, isStrWhiteSpaceChar c = false := by
        intro c hc
        rcases List.mem_append.mp hc with h | h
        · exact hsignws c h
        · exact isDecimalDigit_not_whiteSpace c (hip c h)
      have hdec : isStrDecimalLiteral (sign ++ ip) = true := by
        refine isStrDecimalLiteral_signed sign ip hsign ?_
          (isStrUnsignedDecimalLiteral_digits ip hne hip)
        intro c r hcr
        exact hsigndig c (hip c (by rw [hcr]; exact List.mem_cons_self c r))
      simp [isStringNumericLiteral, hdata, trimStrWhiteSpace_of_none _ hws, hdec]
    · have hws : ∀ c ∈ sign ++ ip ++ '.' :: fp, isStrWhiteSpaceChar c = false := by
        intro c hc
        rcases List.mem_append.mp hc with h | h
        · rcases List.mem_append.mp h with h1 | h1
          · exact hsignws c h1
          · exact isDecimalDigit_not_whiteSpace c (hip c h1)
        · rcases List.mem_cons.mp h with h1 | h1
          · subst h1
            decide
          · exact isDecimalDigit_not_whiteSpace c (hfp c h1)
      have hdec : isStrDecimalLiteral (sign ++ (ip ++ '.' :: fp)) = true := by
        refine isStrDecimalLiteral_signed sign _ hsign ?_
          (isStrUnsignedDecimalLiteral_point ip fp hne hip hfp)
        intro c r hcr
        cases ip with
        | nil =>
          simp only [List.nil_append, List.cons.injEq] at hcr
          rw [← hcr.1]
          decide
        | cons a t =>
          simp only [List.cons_append, List.cons.injEq] at hcr
          rw [← hcr.1]
          exact hsigndig a (hip a (List.mem_cons_self a t))
      rw [List.append_assoc] at hdata hws
      simp [isStringNumericLiteral, hdata, trimStrWhiteSpace_of_none _ hws, hdec]
  simp [isNumeric, isNaN, hlit]

/-- The empty text and every text of white space only is numeric. -/
theorem isNumeric_of_blank (T : String) (hT : BlankText T) : isNumeric T = true := by
  simp [isNumeric, isNaN, isStringNumericLiteral, trimStrWhiteSpace_of_all T.data hT]

/-! ### The codec and the two handlers, case by case -/

/-- When `ethers.helify` is undefined, `str2hex` throws on every argument. -/
theorem str2hex_throws (H : Host) (hH : H.helify = none) (x : String) :
    ∃ e, str2hex H x = .error e := by
  unfold str2hex
  cases hb : H.toUtf8Bytes x with
  | error e => exact ⟨e, rfl⟩
  | ok bytes => simp [hH]

/-- On the `ethers` of the package, `str2hex` throws the same `TypeError` on
every argument. -/
theorem str2hex_node (x : String) :
    str2hex node x = .error (.typeError "ethers.helify is not a function") := rfl

/-- `handle_advance` on a request without `metadata`. -/
theorem handle_advance_of_no_metadata (H : Host) (st : AppState) (payload : String) :
    handle_advance H st ⟨none, payload⟩ =
      ⟨st, [], .error (.typeError "Cannot read properties of undefined (reading 'msg_sender')")⟩ :=
  rfl

/-- `handle_advance` on a payload that does not decode. -/
theorem handle_advance_of_undecodable (H : Host) (st : AppState) (m : Metadata)
    (payload : String) (e : JsError) (hd : hex2str H payload = .error e) :
    handle_advance H st ⟨some m, payload⟩ = ⟨st, [], .error e⟩ := by
  simp [handle_advance, hd]

/-- The accept branch of `handle_advance`, up to the call of `str2hex`. -/
theorem handle_advance_of_nonNumeric (H : Host) (st : AppState) (S payload T : String)
    (hdec : hex2str H payload = .ok T) (hnum : isNumeric T = false) :
    handle_advance H st ⟨some ⟨S⟩, payload⟩ =
      match str2hex H (H.toUpperCase T) with
      | .error e => ⟨⟨st.users ++ [S], st.toUpperTotal + 1⟩, [], .error e⟩
      | .ok hex =>
        ⟨⟨st.users ++ [S], st.toUpperTotal + 1⟩, [⟨.notice, .payload hex⟩], .ok (.str "accept")⟩ := by
  simp [handle_advance, hdec, hnum]

/-- The reject branch of `handle_advance`, up to the call of `str2hex`. -/
theorem handle_advance_of_numeric (H : Host) (st : AppState) (S payload T : String)
    (hdec : hex2str H payload = .ok T) (hnum : isNumeric T = true) :
    handle_advance H st ⟨some ⟨S⟩, payload⟩ =
      match str2hex H "sentence is not in hex format" with
      | .error e => ⟨st, [], .error e⟩
      | .ok hex => ⟨st, [⟨.report, .payload hex⟩], .ok (.str "reject")⟩ := by
  simp [handle_advance, hdec, hnum]

/-- `handle_inspect` on a payload that does not decode. -/
theorem handle_inspect_of_undecodable (H : Host) (st : AppState) (data : RequestData)
    (e : JsError) (hd : hex2str H data.payload = .error e) :
    handle_inspect H st data = ⟨st, [], .error e⟩ := by
  simp [handle_inspect, hd]

/-- `handle_inspect` on a payload that decodes to `route`, up to the call of `str2hex`. -/
theorem handle_inspect_of_route (H : Host) (st : AppState) (data : RequestData)
    (route : String) (hd : hex2str H data.payload = .ok route) :
    handle_inspect H st data =
      match str2hex H (responseObject st route) with
      | .error e => ⟨st, [], .error e⟩
      | .ok hex => ⟨st, [⟨.report, .payload hex⟩], .ok (.str "accept")⟩ := by
  simp [handle_inspect, hd]

/-- Every outcome of `handle_advance`: it throws with the state untouched and
nothing sent (before the validation or in the rejection branch), rejects with
one report, throws after recording the sender, or accepts with one notice. -/
theorem handle_advance_cases (H : Host) (st : AppState) (data : RequestData) :
    (∃ e, handle_advance H st data = ⟨st, [], .error e⟩) ∨
    (∃ hex, handle_advance H st data = ⟨st, [⟨.report, .payload hex⟩], .ok (.str "reject")⟩) ∨
    (∃ m e, data.metadata = some m ∧ handle_advance H st data =
      ⟨⟨st.users ++ [m.msg_sender], st.toUpperTotal + 1⟩, [], .error e⟩) ∨
    (∃ m hex, data.metadata = some m ∧ handle_advance H st data =
      ⟨⟨st.users ++ [m.msg_sender], st.toUpperTotal + 1⟩, [⟨.notice, .payload hex⟩],
        .ok (.str "accept")⟩) := by
  obtain ⟨md, payload⟩ := data
  cases md with
  | none => exact Or.inl ⟨_, handle_advance_of_no_metadata H st payload⟩
  | some m =>
    obtain ⟨S⟩ := m
    cases hd : hex2str H payload with
    | error e => exact Or.inl ⟨e, handle_advance_of_undecodable H st ⟨S⟩ payload e hd⟩
    | ok T =>
      cases hn : isNumeric T with
      | true =>
        rw [handle_advance_of_numeric H st S payload T hd hn]
        cases str2hex H "sentence is not in hex format" with
        | error e => exact Or.inl ⟨e, rfl⟩
        | ok hex => exact Or.inr (Or.inl ⟨hex, rfl⟩)
      | false =>
        rw [handle_advance_of_nonNumeric H st S payload T hd hn]
        cases str2hex H (H.toUpperCase T) with
        | error e => exact Or.inr (Or.inr (Or.inl ⟨⟨S⟩, e, rfl, rfl⟩))
        | ok hex => exact Or.inr (Or.inr (Or.inr ⟨⟨S⟩, hex, rfl, rfl⟩))

/-- Every outcome of `handle_inspect`: the state is untouched; it throws with
nothing sent, or accepts with one report. -/
theorem handle_inspect_cases (H : Host) (st : AppState) (data : RequestData) :
    (∃ e, handle_inspect H st data = ⟨st, [], .error e⟩) ∨
    (∃ hex, handle_inspect H st data = ⟨st, [⟨.report, .payload hex⟩], .ok (.str "accept")⟩) := by
  cases hd : hex2str H data.payload with
  | error e => exact Or.inl ⟨e, handle_inspect_of_undecodable H st data e hd⟩
  | ok route =>
    rw [handle_inspect_of_route H st data route hd]
    cases str2hex H (responseObject st route) with
    | error e => exact Or.inl ⟨e, rfl⟩
    | ok hex => exact Or.inr ⟨hex, rfl⟩

/-- With `ethers.helify` undefined, `handle_advance` sends nothing and throws
on every request. -/
theorem handle_advance_throws (H : Host) (hH : H.helify = none) (st : AppState)
    (data : RequestData) :
    (handle_advance H st data).sent = [] ∧ ∃ e, (handle_advance H st data).result = .error e := by
  obtain ⟨md, payload⟩ := data
  cases md with
  | none => exact ⟨rfl, _, rfl⟩
  | some m =>
    obtain ⟨S⟩ := m
    cases hd : hex2str H payload with
    | error e =>
      rw [handle_advance_of_undecodable H st ⟨S⟩ payload e hd]
      exact ⟨rfl, e, rfl⟩
    | ok T =>
      cases hn : isNumeric T with
      | true =>
        obtain ⟨e, hs⟩ := str2hex_throws H hH "sentence is not in hex format"
        rw [handle_advance_of_numeric H st S payload T hd hn, hs]
        exact ⟨rfl, e, rfl⟩
      | false =>
        obtain ⟨e, hs⟩ := str2hex_throws H hH (H.toUpperCase T)
        rw [handle_advance_of_nonNumeric H st S payload T hd hn, hs]
        exact ⟨rfl, e, rfl⟩

/-- With `ethers.helify` undefined, `handle_inspect` sends nothing and throws
on every request. -/
theorem handle_inspect_throws (H : Host) (hH : H.helify = none) (st : AppState)
    (data : RequestData) :
    (handle_inspect H st data).sent = [] ∧ ∃ e, (handle_inspect H st data).result = .error e := by
  cases hd : hex2str H data.payload with
  | error e =>
    rw [handle_inspect_of_undecodable H st data e hd]
    exact ⟨rfl, e, rfl⟩
  | ok route =>
    obtain ⟨e, he⟩ := str2hex_throws H hH (responseObject st route)
    rw [handle_inspect_of_route H st data route hd, he]
    exact ⟨rfl, e, rfl⟩

/-! ### Claims on the codec and the handlers -/

/-- C8, as the code behaves: with `ethers.helify` undefined, `str2hex`
returns on no text `x`, so `hex2str(str2hex(x))` throws instead of giving
`x` back. -/
theorem str2hex_never_returns (H : Host) (hH : H.helify = none) (x : String) :
    (∀ hex, str2hex H x ≠ .ok hex) ∧ (∃ e, roundTrip H x = .error e) ∧ roundTrip H x ≠ .ok x := by
  obtain ⟨e, he⟩ := str2hex_throws H hH x
  refine ⟨?_, ⟨e, ?_⟩, ?_⟩
  · intro hex h
    rw [he] at h
    cases h
  · simp [roundTrip, he]
  · simp [roundTrip, he]

/-- C8 at the text `hi` on the package's `ethers`: `str2hex("hi")` throws
`TypeError: ethers.helify is not a function`, and the round trip does not
give `hi` back. -/
theorem str2hex_never_returns_witness :
    node.helify = none ∧
    str2hex node "hi" = .error (.typeError "ethers.helify is not a function") ∧
    ((∀ hex, str2hex node "hi" ≠ .ok hex) ∧ (∃ e, roundTrip node "hi" = .error e) ∧
      roundTrip node "hi" ≠ .ok "hi") :=
  ⟨rfl, rfl, str2hex_never_returns node rfl "hi"⟩

/-- C1, as the code behaves: with `ethers.helify` undefined, an advance
request whose payload decodes to a non-numeric text appends the sender to
`users` and adds one to `toUpperTotal`, and then throws in `str2hex`: no
notice is sent and `accept` is not returned. -/
theorem handle_advance_nonNumeric_throws (H : Host) (hH : H.helify = none) (st : AppState)
    (S payload T : String) (hdec : hex2str H payload = .ok T) (hnum : isNumeric T = false) :
    (handle_advance H st ⟨some ⟨S⟩, payload⟩).state = ⟨st.users ++ [S], st.toUpperTotal + 1⟩ ∧
    (handle_advance H st ⟨some ⟨S⟩, payload⟩).sent = [] ∧
    ∃ e, (handle_advance H st ⟨some ⟨S⟩, payload⟩).result = .error e := by
  obtain ⟨e, he⟩ := str2hex_throws H hH (H.toUpperCase T)
  rw [handle_advance_of_nonNumeric H st S payload T hdec hnum, he]
  exact ⟨rfl, rfl, e, rfl⟩

/-- C1 at the payload `0x6869` (the text `hi`) from sender `0xabc` in the
initial state: the sender is recorded and the counter is 1, yet the handler
throws and nothing is sent. -/
theorem handle_advance_nonNumeric_throws_witness :
    (handle_advance node AppState.initial ⟨some ⟨"0xabc"⟩, "0x6869"⟩).state = ⟨["0xabc"], 1⟩ ∧
    (handle_advance node AppState.initial ⟨some ⟨"0xabc"⟩, "0x6869"⟩).sent = [] ∧
    ∃ e, (handle_advance node AppState.initial ⟨some ⟨"0xabc"⟩, "0x6869"⟩).result = .error e :=
  handle_advance_nonNumeric_throws node rfl AppState.initial "0xabc" "0x6869" "hi"
    (by decide) (by decide)

/-- C2, as the code behaves: with `ethers.helify` undefined, an advance
request whose payload decodes to a text of digits (optionally signed, optionally
with a decimal point) is numeric, so the handler takes the rejection branch;
`users` and `toUpperTotal` are unchanged, but the handler throws in `str2hex`:
no report is sent and `reject` is not returned. -/
theorem handle_advance_digits_throws (H : Host) (hH : H.helify = none) (st : AppState)
    (S payload T : String) (hdec : hex2str H payload = .ok T) (hT : DigitsOnly T) :
    isNumeric T = true ∧
    (handle_advance H st ⟨some ⟨S⟩, payload⟩).state = st ∧
    (handle_advance H st ⟨some ⟨S⟩, payload⟩).sent = [] ∧
    ∃ e, (handle_advance H st ⟨some ⟨S⟩, payload⟩).result = .error e := by
  have hnum := isNumeric_of_digitsOnly T hT
  obtain ⟨e, he⟩ := str2hex_throws H hH "sentence is not in hex format"
  rw [handle_advance_of_numeric H st S payload T hdec hnum, he]
  exact ⟨hnum, rfl, rfl, e, rfl⟩

/-- C2 at the payload `0x2d312e35` (the text `-1.5`) from sender `0xabc`:
the text is numeric, the state is unchanged, nothing is sent and the handler
throws. -/
theorem handle_advance_digits_throws_witness :
    isNumeric "-1.5" = true ∧
    (handle_advance node ⟨["0x01"], 1⟩ ⟨some ⟨"0xabc"⟩, "0x2d312e35"⟩).state = ⟨["0x01"], 1⟩ ∧
    (handle_advance node ⟨["0x01"], 1⟩ ⟨some ⟨"0xabc"⟩, "0x2d312e35"⟩).sent = [] ∧
    ∃ e, (handle_advance node ⟨["0x01"], 1⟩ ⟨some ⟨"0xabc"⟩, "0x2d312e35"⟩).result = .error e :=
  handle_advance_digits_throws node rfl ⟨["0x01"], 1⟩ "0xabc" "0x2d312e35" "-1.5" (by decide)
    ⟨['-'], ['1'], ['5'], Or.inr (Or.inr rfl), by decide, by decide, Or.inr ⟨Or.inl (by decide), rfl⟩⟩

/-- C10, as the code behaves: with `ethers.helify` undefined, an advance
request whose payload decodes to the empty text or to white space only is
numeric although it holds no digit, so the handler takes the rejection
branch; `users` and `toUpperTotal` are unchanged (the sender is not
recorded), but the handler throws in `str2hex` and `reject` is not returned. -/
theorem handle_advance_blank_throws (H : Host) (hH : H.helify = none) (st : AppState)
    (S payload T : String) (hdec : hex2str H payload = .ok T) (hT : BlankText T) :
    isNumeric T = true ∧
    (∀ c ∈ T.data, isDecimalDigit c = false) ∧
    (handle_advance H st ⟨some ⟨S⟩, payload⟩).state = st ∧
    (handle_advance H st ⟨some ⟨S⟩, payload⟩).sent = [] ∧
    ∃ e, (handle_advance H st ⟨some ⟨S⟩, payload⟩).result = .error e := by
  have hnum := isNumeric_of_blank T hT
  obtain ⟨e, he⟩ := str2hex_throws H hH "sentence is not in hex format"
  rw [handle_advance_of_numeric H st S payload T hdec hnum, he]
  exact ⟨hnum, fun c hc => isStrWhiteSpaceChar_not_digit c (hT c hc), rfl, rfl, e, rfl⟩

/-- C10 at the payload `0x200920` (a space, a tab, a space) from sender
`0xabc` in the initial state. -/
theorem handle_advance_blank_throws_witness :
    isNumeric " \t " = true ∧
    (∀ c ∈ " \t ".data, isDecimalDigit c = false) ∧
    (handle_advance node AppState.initial ⟨some ⟨"0xabc"⟩, "0x200920"⟩).state = AppState.initial ∧
    (handle_advance node AppState.initial ⟨some ⟨"0xabc"⟩, "0x200920"⟩).sent = [] ∧
    ∃ e, (handle_advance node AppState.initial ⟨some ⟨"0xabc"⟩, "0x200920"⟩).result = .error e :=
  handle_advance_blank_throws node rfl AppState.initial "0xabc" "0x200920" " \t " (by decide)
    (by decide)

/-- C6, as the code behaves: with `ethers.helify` undefined, on a payload
that decodes to `route` the handler builds the response of the claim
(`responseObject`: the serialised `users` for `list`, the serialised
`toUpperTotal` for `total`, the text `route not implemented` otherwise), but
`str2hex` throws on it: nothing is sent to `/report` and the handler throws. -/
theorem handle_inspect_reports_nothing (H : Host) (hH : H.helify = none) (st : AppState)
    (data : RequestData) (route : String) (hdec : hex2str H data.payload = .ok route) :
    ∃ e, str2hex H (responseObject st route) = .error e ∧
      handle_inspect H st data = ⟨st, [], .error e⟩ := by
  obtain ⟨e, he⟩ := str2hex_throws H hH (responseObject st route)
  refine ⟨e, he, ?_⟩
  rw [handle_inspect_of_route H st data route hdec, he]

/-- C6 at the route `list` (payload `0x6c697374`) with one recorded user:
the response to encode is the serialised list, nothing is posted and the
handler throws the `TypeError` of `str2hex`. -/
theorem handle_inspect_reports_nothing_witness :
    hex2str node "0x6c697374" = .ok "list" ∧
    responseObject ⟨["0xabc"], 1⟩ "list" = "\x7b\"users\":[\"0xabc\"]\x7d" ∧
    handle_inspect node ⟨["0xabc"], 1⟩ ⟨none, "0x6c697374"⟩ =
      ⟨⟨["0xabc"], 1⟩, [], .error (.typeError "ethers.helify is not a function")⟩ ∧
    ∃ e, str2hex node (responseObject ⟨["0xabc"], 1⟩ "list") = .error e ∧
      handle_inspect node ⟨["0xabc"], 1⟩ ⟨none, "0x6c697374"⟩ = ⟨⟨["0xabc"], 1⟩, [], .error e⟩ :=
  ⟨by decide, by decide, by decide,
    handle_inspect_reports_nothing node rfl ⟨["0xabc"], 1⟩ ⟨none, "0x6c697374"⟩ "list" (by decide)⟩

/-- C7, refuted as stated: on the payload `0xff`, which is not UTF-8,
`handle_inspect` throws the decoder's error instead of returning `accept`. -/
theorem handle_inspect_undecodable_throws :
    (handle_inspect node AppState.initial ⟨none, "0xff"⟩).result =
        .error (.typeError "invalid codepoint at offset 0; BAD_PREFIX") ∧
    (handle_inspect node AppState.initial ⟨none, "0xff"⟩).result ≠ .ok (.str "accept") := by
  decide

/-- C7, amended: on every host, state and inspect request, `handle_inspect`
leaves `users` and `toUpperTotal` as they were, whether it returns or throws;
the only value it can return is `accept`; and when the payload does not
decode it throws the decoder's error before anything is sent. -/
theorem handle_inspect_frame (H : Host) (st : AppState) (data : RequestData) :
    (handle_inspect H st data).state = st ∧
    (∀ v, (handle_inspect H st data).result = .ok v → v = .str "accept") ∧
    (∀ e, hex2str H data.payload = .error e →
      (handle_inspect H st data).result = .error e ∧ (handle_inspect H st data).sent = []) := by
  cases hd : hex2str H data.payload with
  | error e =>
    rw [handle_inspect_of_undecodable H st data e hd]
    refine ⟨rfl, ?_, ?_⟩
    · intro v hv
      cases hv
    · intro e1 he1
      cases he1
      exact ⟨rfl, rfl⟩
  | ok route =>
    rw [handle_inspect_of_route H st data route hd]
    cases hs : str2hex H (responseObject st route) with
    | error e =>
      refine ⟨rfl, ?_, ?_⟩
      · intro v hv
        cases hv
      · intro e1 he1
        cases he1
    | ok hex =>
      refine ⟨rfl, ?_, ?_⟩
      · intro v hv
        cases hv
        rfl
      · intro e1 he1
        cases he1

/-! ### The handler table and the loop -/

/-- A member inherited from `Object.prototype` neither touches the state nor
sends anything. -/
theorem objectPrototype_effect (name : String) (handler : Handler)
    (h : objectPrototype name = some handler) (H : Host) (st : AppState) (data : RequestData) :
    (handler H st data).state = st ∧ (handler H st data).sent = [] := by
  unfold objectPrototype at h
  split_ifs at h <;> cases h <;> exact ⟨rfl, rfl⟩

/-- What a property read on `handlers` can find. -/
theorem handlers_cases (request_type : String) (handler : Handler)
    (h : handlers request_type = some handler) :
    (request_type = "advance_state" ∧ handler = handle_advance) ∨
    (request_type = "inspect_state" ∧ handler = handle_inspect) ∨
    (request_type ≠ "advance_state" ∧ request_type ≠ "inspect_state" ∧
      objectPrototype request_type = some handler) := by
  unfold handlers at h
  split_ifs at h with h1 h2
  · cases h
    exact Or.inl ⟨h1, rfl⟩
  · cases h
    exact Or.inr (Or.inl ⟨h2, rfl⟩)
  · exact Or.inr (Or.inr ⟨h1, h2, h⟩)

/-- A tag that is neither of the two own keys nor a method name of
`Object.prototype` finds no function in `handlers`. -/
theorem handlers_of_unknown (request_type : String)
    (h : request_type ∉ ["advance_state", "inspect_state", "constructor", "toString",
      "toLocaleString", "valueOf", "hasOwnProperty", "isPrototypeOf", "propertyIsEnumerable",
      "__defineGetter__", "__defineSetter__", "__lookupGetter__", "__lookupSetter__"]) :
    handlers request_type = none := by
  simp only [List.mem_cons, List.mem_singleton, not_or, List.not_mem_nil, not_false_eq_true,
    and_true] at h
  obtain ⟨h1, h2, h3, h4, h5, h6, h7, h8, h9, h10, h11, h12, h13⟩ := h
  simp [handlers, objectPrototype, h1, h2, h3, h4, h5, h6, h7, h8, h9, h10, h11, h12, h13]

/-- No handler posts to `/finish`. -/
theorem handler_never_posts_finish (H : Host) (request_type : String) (handler : Handler)
    (h : handlers request_type = some handler) (st : AppState) (data : RequestData) :
    ∀ post ∈ (handler H st data).sent, post.endpoint ≠ .finish := by
  intro post hpost
  rcases handlers_cases request_type handler h with ⟨_, rfl⟩ | ⟨_, rfl⟩ | ⟨_, _, hp⟩
  · rcases handle_advance_cases H st data with ⟨e, he⟩ | ⟨hex, he⟩ | ⟨m, e, _, he⟩ | ⟨m, hex, _, he⟩
    all_goals
      rw [he] at hpost
      simp at hpost
    all_goals
      subst hpost
      simp
  · rcases handle_inspect_cases H st data with ⟨e, he⟩ | ⟨hex, he⟩
    all_goals
      rw [he] at hpost
      simp at hpost
    all_goals
      subst hpost
      simp
  · rw [(objectPrototype_effect request_type handler hp H st data).2] at hpost
    simp at hpost

/-- With `ethers.helify` undefined, no handler posts anything. -/
theorem handler_posts_nothing (H : Host) (hH : H.helify = none) (request_type : String)
    (handler : Handler) (h : handlers request_type = some handler) (st : AppState)
    (data : RequestData) : (handler H st data).sent = [] := by
  rcases handlers_cases request_type handler h with ⟨_, rfl⟩ | ⟨_, rfl⟩ | ⟨_, _, hp⟩
  · exact (handle_advance_throws H hH st data).1
  · exact (handle_inspect_throws H hH st data).1
  · exact (objectPrototype_effect request_type handler hp H st data).2

/-- Once an exception has ended the loop, further responses change nothing. -/
theorem run_of_fault (H : Host) (p : Process) (e : JsError) (h : p.fault = some e)
    (responses : List FinishResponse) : run H p responses = p := by
  cases responses with
  | nil => rfl
  | cons r rest => simp [run, h]

/-- One pass of the loop posts the literal `accept` to `/finish` and then
only what the handler posts, none of it to `/finish`. -/
theorem iteration_sent (H : Host) (p : Process) (response : FinishResponse) :
    ∃ extra, (iteration H p response).sent = p.sent ++ ⟨.finish, .status "accept"⟩ :: extra ∧
      ∀ post ∈ extra, post.endpoint ≠ .finish := by
  cases response with
  | noPending => exact ⟨[], rfl, by simp⟩
  | pending req =>
    cases hh : handlers req.request_type with
    | none => exact ⟨[], by simp [iteration, dispatch, hh], by simp⟩
    | some handler =>
      refine ⟨(handler H p.app req.data).sent, ?_,
        handler_never_posts_finish H req.request_type handler hh p.app req.data⟩
      cases hr : (handler H p.app req.data).result <;> simp [iteration, dispatch, hh, hr]

/-- With `ethers.helify` undefined, one pass of the loop posts to `/finish`
and nothing else. -/
theorem iteration_sent_of_no_helify (H : Host) (hH : H.helify = none) (p : Process)
    (response : FinishResponse) :
    (iteration H p response).sent = p.sent ++ [⟨.finish, .status "accept"⟩] := by
  cases response with
  | noPending => rfl
  | pending req =>
    cases hh : handlers req.request_type with
    | none => simp [iteration, dispatch, hh]
    | some handler =>
      have hs := handler_posts_nothing H hH req.request_type handler hh p.app req.data
      cases hr : (handler H p.app req.data).result <;> simp [iteration, dispatch, hh, hr, hs]

/-- The body of every POST to `/finish` is the literal `accept`, from any
process in which that held so far. -/
theorem run_finish_posts (H : Host) (responses : List FinishResponse) :
    ∀ p : Process, (∀ post ∈ p.sent, post.endpoint = .finish → post.body = .status "accept") →
      ∀ post ∈ (run H p responses).sent, post.endpoint = .finish → post.body = .status "accept" := by
  induction responses with
  | nil => intro p hp; exact hp
  | cons r rest ih =>
    intro p hp
    cases hf : p.fault with
    | some e => rw [run_of_fault H p e hf]; exact hp
    | none =>
      simp only [run, hf]
      apply ih
      obtain ⟨extra, hsent, hextra⟩ := iteration_sent H p r
      intro post hpost hend
      rw [hsent] at hpost
      rcases List.mem_append.mp hpost with h | h
      · exact hp post h hend
      · rcases List.mem_cons.mp h with h1 | h1
        · rw [h1]
        · exact absurd hend (hextra post h1)

/-- With `ethers.helify` undefined, every POST the loop makes goes to
`/finish`, from any process in which that held so far. -/
theorem run_posts_of_no_helify (H : Host) (hH : H.helify = none)
    (responses : List FinishResponse) :
    ∀ p : Process, (∀ post ∈ p.sent, post.endpoint = .finish) →
      ∀ post ∈ (run H p responses).sent, post.endpoint = .finish := by
  induction responses with
  | nil => intro p hp; exact hp
  | cons r rest ih =>
    intro p hp
    cases hf : p.fault with
    | some e => rw [run_of_fault H p e hf]; exact hp
    | none =>
      simp only [run, hf]
      apply ih
      intro post hpost
      rw [iteration_sent_of_no_helify H hH p r] at hpost
      rcases List.mem_append.mp hpost with h | h
      · exact hp post h
      · rw [List.mem_singleton.mp h]

/-- With `ethers.helify` undefined, no advance request is ever accepted. -/
theorem acceptedAdvances_of_no_helify (H : Host) (hH : H.helify = none)
    (responses : List FinishResponse) : ∀ p : Process, acceptedAdvances H p responses = 0 := by
  induction responses with
  | nil => intro p; rfl
  | cons r rest ih =>
    intro p
    cases r with
    | noPending =>
      cases hf : p.fault with
      | some e => simp [acceptedAdvances, handled, hf]
      | none =>
        have := ih (iteration H p .noPending)
        simpa [acceptedAdvances, handled, hf] using this
    | pending req =>
      cases hf : p.fault with
      | some e => simp [acceptedAdvances, handled, hf]
      | none =>
        cases hh : handlers req.request_type with
        | none => simp [acceptedAdvances, handled, hf, hh]
        | some handler =>
          have hrej : isAcceptedAdvance (req, (handler H p.app req.data).result) = false := by
            rcases handlers_cases req.request_type handler hh with ⟨_, rfl⟩ | ⟨h1, _⟩ | ⟨h1, _, _⟩
            · obtain ⟨e, he⟩ := (handle_advance_throws H hH p.app req.data).2
              simp [isAcceptedAdvance, he]
            · simp [isAcceptedAdvance, h1]
            · simp [isAcceptedAdvance, h1]
          have := ih (iteration H p (.pending req))
          simpa [acceptedAdvances, handled, hf, hh, List.filter_cons, hrej] using this

/-- With `ethers.helify` undefined, every call of `handle_advance` or
`handle_inspect` made by the loop throws. -/
theorem handled_own_throws (H : Host) (hH : H.helify = none)
    (responses : List FinishResponse) :
    ∀ p : Process, ∀ entry ∈ handled H p responses,
      (entry.1.request_type = "advance_state" ∨ entry.1.request_type = "inspect_state") →
        ∃ e, entry.2 = .error e := by
  induction responses with
  | nil => intro p entry h; simp [handled] at h
  | cons r rest ih =>
    intro p entry hentry htag
    cases r with
    | noPending =>
      cases hf : p.fault with
      | some e => simp [handled, hf] at hentry
      | none =>
        simp only [handled, hf] at hentry
        exact ih _ entry hentry htag
    | pending req =>
      cases hf : p.fault with
      | some e => simp [handled, hf] at hentry
      | none =>
        cases hh : handlers req.request_type with
        | none => simp [handled, hf, hh] at hentry
        | some handler =>
          simp only [handled, hf, hh, List.mem_cons] at hentry
          rcases hentry with h | h
          · subst h
            rcases handlers_cases req.request_type handler hh with ⟨_, rfl⟩ | ⟨_, rfl⟩ | ⟨h1, h2, _⟩
            · exact (handle_advance_throws H hH p.app req.data).2
            · exact (handle_inspect_throws H hH p.app req.data).2
            · rcases htag with h3 | h3
              · exact absurd h3 h1
              · exact absurd h3 h2
          · exact ih _ entry h htag

/-- A member inherited from `Object.prototype` never returns `accept` or
`reject`: it returns its argument or the tag of `undefined`, or it throws. -/
theorem objectPrototype_result (name : String) (handler : Handler)
    (h : objectPrototype name = some handler) (H : Host) (st : AppState) (data : RequestData) :
    (handler H st data).result ≠ .ok (.str "accept") ∧
    (handler H st data).result ≠ .ok (.str "reject") := by
  unfold objectPrototype at h
  split_ifs at h <;> cases h <;> exact ⟨by simp, by simp⟩

/-- With `ethers.helify` undefined, no handler call made by the loop returns
`accept` or `reject`, whatever the coordinator serves. -/
theorem handled_never_verdict (H : Host) (hH : H.helify = none)
    (responses : List FinishResponse) :
    ∀ p : Process, ∀ entry ∈ handled H p responses,
      entry.2 ≠ .ok (.str "accept") ∧ entry.2 ≠ .ok (.str "reject") := by
  induction responses with
  | nil => intro p entry h; simp [handled] at h
  | cons r rest ih =>
    intro p entry hentry
    cases r with
    | noPending =>
      cases hf : p.fault with
      | some e => simp [handled, hf] at hentry
      | none =>
        simp only [handled, hf] at hentry
        exact ih _ entry hentry
    | pending req =>
      cases hf : p.fault with
      | some e => simp [handled, hf] at hentry
      | none =>
        cases hh : handlers req.request_type with
        | none => simp [handled, hf, hh] at hentry
        | some handler =>
          simp only [handled, hf, hh, List.mem_cons] at hentry
          rcases hentry with h | h
          · subst h
            rcases handlers_cases req.request_type handler hh with ⟨_, rfl⟩ | ⟨_, rfl⟩ | ⟨_, _, hp⟩
            · obtain ⟨e, he⟩ := (handle_advance_throws H hH p.app req.data).2
              simp [he]
            · obtain ⟨e, he⟩ := (handle_inspect_throws H hH p.app req.data).2
              simp [he]
            · exact objectPrototype_result req.request_type handler hp H p.app req.data
          · exact ih _ entry h

/-- One pass of the loop leaves `users` and `toUpperTotal` as they were or
appends one sender and adds one to the counter. -/
theorem iteration_app (H : Host) (p : Process) (response : FinishResponse) :
    (iteration H p response).app = p.app ∨
    ∃ S, (iteration H p response).app = ⟨p.app.users ++ [S], p.app.toUpperTotal + 1⟩ := by
  cases response with
  | noPending => exact Or.inl rfl
  | pending req =>
    cases hh : handlers req.request_type with
    | none => exact Or.inl (by simp [iteration, dispatch, hh])
    | some handler =>
      have happ : (iteration H p (.pending req)).app = (handler H p.app req.data).state := by
        cases hr : (handler H p.app req.data).result <;> simp [iteration, dispatch, hh, hr]
      rw [happ]
      rcases handlers_cases req.request_type handler hh with ⟨_, rfl⟩ | ⟨_, rfl⟩ | ⟨_, _, hp⟩
      · rcases handle_advance_cases H p.app req.data with
          ⟨e, he⟩ | ⟨hex, he⟩ | ⟨m, e, _, he⟩ | ⟨m, hex, _, he⟩
        · exact Or.inl (by rw [he])
        · exact Or.inl (by rw [he])
        · exact Or.inr ⟨m.msg_sender, by rw [he]⟩
        · exact Or.inr ⟨m.msg_sender, by rw [he]⟩
      · rcases handle_inspect_cases H p.app req.data with ⟨e, he⟩ | ⟨hex, he⟩
        · exact Or.inl (by rw [he])
        · exact Or.inl (by rw [he])
      · exact Or.inl (objectPrototype_effect req.request_type handler hp H p.app req.data).1

/-- On every host, `toUpperTotal` equals the length of `users` in every
state the loop reaches from a process in which they are equal. -/
theorem run_counter_eq_length (H : Host) (responses : List FinishResponse) :
    ∀ p : Process, p.app.toUpperTotal = p.app.users.length →
      (run H p responses).app.toUpperTotal = (run H p responses).app.users.length := by
  induction responses with
  | nil => intro p hp; exact hp
  | cons r rest ih =>
    intro p hp
    cases hf : p.fault with
    | some e => rw [run_of_fault H p e hf]; exact hp
    | none =>
      simp only [run, hf]
      apply ih
      rcases iteration_app H p r with h | ⟨S, h⟩
      · rw [h]; exact hp
      · rw [h]; simp [hp]

/-! ### Claims on the loop -/

/-- C3, as the code behaves: with `ethers.helify` undefined, `toUpperTotal`
equals the length of `users` in every reachable state, but no advance request
is ever accepted, whatever the coordinator serves; yet one advance request
with a non-numeric text, served first, leaves `users` holding its sender and
`toUpperTotal` at 1, and ends the loop with an exception. -/
theorem advance_counted_without_accept (H : Host) (hH : H.helify = none)
    (S payload T : String) (hdec : hex2str H payload = .ok T) (hnum : isNumeric T = false) :
    (∀ responses, (run H Process.initial responses).app.toUpperTotal =
      (run H Process.initial responses).app.users.length) ∧
    (∀ responses, acceptedAdvances H Process.initial responses = 0) ∧
    (run H Process.initial [advanceRequest S payload]).app = ⟨[S], 1⟩ ∧
    ∃ e, (run H Process.initial [advanceRequest S payload]).fault = some e := by
  obtain ⟨e, he⟩ := str2hex_throws H hH (H.toUpperCase T)
  have hadv : handle_advance H ⟨[], 0⟩ ⟨some ⟨S⟩, payload⟩ = ⟨⟨[S], 1⟩, [], .error e⟩ := by
    rw [handle_advance_of_nonNumeric H ⟨[], 0⟩ S payload T hdec hnum, he]
    rfl
  refine ⟨fun responses => run_counter_eq_length H responses Process.initial rfl,
    fun responses => acceptedAdvances_of_no_helify H hH responses Process.initial, ?_, e, ?_⟩ <;>
    simp [run, iteration, dispatch, handlers, advanceRequest, Process.initial, hadv,
      AppState.initial]

/-- C3 at one advance request from `0xabc` with payload `0x6869` (`hi`):
no advance was accepted, `users` is `["0xabc"]` and `toUpperTotal` is 1. -/
theorem advance_counted_without_accept_witness :
    acceptedAdvances node Process.initial [advanceRequest "0xabc" "0x6869"] = 0 ∧
    (run node Process.initial [advanceRequest "0xabc" "0x6869"]).app.toUpperTotal = 1 ∧
    ((∀ responses, (run node Process.initial responses).app.toUpperTotal =
        (run node Process.initial responses).app.users.length) ∧
      (∀ responses, acceptedAdvances node Process.initial responses = 0) ∧
      (run node Process.initial [advanceRequest "0xabc" "0x6869"]).app = ⟨["0xabc"], 1⟩ ∧
      ∃ e, (run node Process.initial [advanceRequest "0xabc" "0x6869"]).fault = some e) :=
  ⟨by decide, by decide,
    advance_counted_without_accept node rfl "0xabc" "0x6869" "hi" (by decide) (by decide)⟩

/-- C5, as the code behaves: with `ethers.helify` undefined, whatever the
coordinator serves, the loop posts to `/finish` only (no inspect request is
ever answered on `/report`), and every inspect or advance request it handles
throws. -/
theorem inspect_list_never_reported (H : Host) (hH : H.helify = none)
    (responses : List FinishResponse) :
    (∀ post ∈ (run H Process.initial responses).sent, post.endpoint = .finish) ∧
    (∀ entry ∈ handled H Process.initial responses,
      (entry.1.request_type = "advance_state" ∨ entry.1.request_type = "inspect_state") →
        ∃ e, entry.2 = .error e) := by
  refine ⟨run_posts_of_no_helify H hH responses Process.initial ?_,
    handled_own_throws H hH responses Process.initial⟩
  intro post hpost
  simp [Process.initial] at hpost

/-- C5 at the route `list` served first (payload `0x6c697374`): the only
POST is the poll, and the handler threw. -/
theorem inspect_list_never_reported_witness :
    (run node Process.initial [inspectRequest "0x6c697374"]).sent =
      [⟨.finish, .status "accept"⟩] ∧
    (run node Process.initial [inspectRequest "0x6c697374"]).fault =
      some (.typeError "ethers.helify is not a function") ∧
    ((∀ post ∈ (run node Process.initial [inspectRequest "0x6c697374"]).sent,
        post.endpoint = .finish) ∧
      (∀ entry ∈ handled node Process.initial [inspectRequest "0x6c697374"],
        (entry.1.request_type = "advance_state" ∨ entry.1.request_type = "inspect_state") →
          ∃ e, entry.2 = .error e)) :=
  ⟨by decide, by decide, inspect_list_never_reported node rfl [inspectRequest "0x6c697374"]⟩

/-- C9, refuted as stated: a message with the tag `unknown` makes the
dispatch step throw `TypeError: handler is not a function`; no verdict is
stored, nothing is reported, and the poll that follows is never made. -/
theorem dispatch_unknown_tag_throws :
    (run node Process.initial [.pending ⟨"unknown", ⟨none, "0x"⟩⟩, .noPending]).fault =
      some (.typeError "handler is not a function") ∧
    (run node Process.initial [.pending ⟨"unknown", ⟨none, "0x"⟩⟩, .noPending]).sent =
      [⟨.finish, .status "accept"⟩] := by
  decide

/-- C9, amended: on every host, a message whose tag finds no function in
`handlers`, and an `advance_state` or `inspect_state` message whose payload
does not decode, make the pass of the loop throw after its poll: `users`,
`toUpperTotal` and `finish.status` are unchanged, nothing is sent to
`/report` or `/notice`, and the loop makes no further pass. -/
theorem iteration_malformed_throws (H : Host) (p : Process) (req : RollupReq)
    (hbad : handlers req.request_type = none ∨
      ((req.request_type = "advance_state" ∨ req.request_type = "inspect_state") ∧
        ∃ e, hex2str H req.data.payload = .error e)) :
    (∃ e, (iteration H p (.pending req)).fault = some e) ∧
    (iteration H p (.pending req)).app = p.app ∧
    (iteration H p (.pending req)).finish_status = p.finish_status ∧
    (iteration H p (.pending req)).sent = p.sent ++ [⟨.finish, .status "accept"⟩] ∧
    ∀ rest, run H (iteration H p (.pending req)) rest = iteration H p (.pending req) := by
  have key : ∃ e, iteration H p (.pending req) =
      { app := p.app, finish_status := p.finish_status,
        sent := p.sent ++ [⟨.finish, .status "accept"⟩], fault := some e } := by
    obtain ⟨tag, md, payload⟩ := req
    rcases hbad with hnone | ⟨htag, e, he⟩
    · exact ⟨.typeError "handler is not a function", by simp [iteration, dispatch, hnone]⟩
    · rcases htag with h | h
      · simp only at h he
        subst h
        cases md with
        | none =>
          exact ⟨.typeError "Cannot read properties of undefined (reading 'msg_sender')", by
            simp [iteration, dispatch, handlers, handle_advance_of_no_metadata]⟩
        | some m =>
          exact ⟨e, by
            simp [iteration, dispatch, handlers, handle_advance_of_undecodable H p.app m payload e he]⟩
      · simp only at h he
        subst h
        exact ⟨e, by
          simp [iteration, dispatch, handlers,
            handle_inspect_of_undecodable H p.app ⟨md, payload⟩ e he]⟩
  obtain ⟨e, he⟩ := key
  rw [he]
  exact ⟨⟨e, rfl⟩, rfl, rfl, rfl, fun rest => run_of_fault H _ e rfl rest⟩

/-- C9 at the tag `unknown` in the initial process: the pass throws after
its poll and the state is the initial one. -/
theorem iteration_malformed_throws_witness :
    handlers "unknown" = none ∧
    ((∃ e, (iteration node Process.initial (.pending ⟨"unknown", ⟨none, "0x"⟩⟩)).fault = some e) ∧
    (iteration node Process.initial (.pending ⟨"unknown", ⟨none, "0x"⟩⟩)).app =
      Process.initial.app ∧
    (iteration node Process.initial (.pending ⟨"unknown", ⟨none, "0x"⟩⟩)).finish_status =
      Process.initial.finish_status ∧
    (iteration node Process.initial (.pending ⟨"unknown", ⟨none, "0x"⟩⟩)).sent =
      Process.initial.sent ++ [⟨.finish, .status "accept"⟩] ∧
    ∀ rest, run node (iteration node Process.initial (.pending ⟨"unknown", ⟨none, "0x"⟩⟩)) rest =
      iteration node Process.initial (.pending ⟨"unknown", ⟨none, "0x"⟩⟩)) :=
  ⟨handlers_of_unknown "unknown" (by decide),
    iteration_malformed_throws node Process.initial ⟨"unknown", ⟨none, "0x"⟩⟩
      (Or.inl (handlers_of_unknown "unknown" (by decide)))⟩

end Dapp
